import Mathlib

/-!
# MyProgSlice: guarded program slice state

A shallow embedding of `svf/include/SABER/MyProgSlice.h`.  The class keeps the
forward and backward slices, the sinks, the reachability flags, the map from
value-flow nodes to path conditions and the final condition of one
source/sink query.  Every inline member function of the header is translated
below: `const` members are functions of the slice state, the other members
return the new slice state (paired with the result when they return one).
-/

set_option autoImplicit false

namespace SVF

/-! ## Data model -/

/-- Address held by a `const SVFGNode*`.  The null pointer is the address `0`. -/
abbrev SVFGNodePtr := Nat

/-- The null pointer constant. -/
def nullptr : SVFGNodePtr := 0

/-- Conversion of a `size_t` quantity to the 32-bit unsigned type `u32_t`. -/
def u32_t (n : Nat) : Nat := n % 4294967296

/-- Modelled from the spec: the condition algebra and guard oracle behind
`SaberCondAllocator* pathAllocator` (`SABER/SaberCondAllocator.h` is not among
the sources).  The algebra offers the canonical true and false conditions,
AND, OR, NOT and an equivalence test; the oracle keeps the node currently under
guard evaluation.  No law of the algebra is built in: the operations are
arbitrary functions, and every law a theorem relies on is a hypothesis of that
theorem. -/
structure SaberCondAllocator (Condition : Type) where
  /-- canonical true -/
  getTrueCond : Condition
  /-- canonical false -/
  getFalseCond : Condition
  /-- conjunction -/
  condAnd : Condition → Condition → Condition
  /-- disjunction -/
  condOr : Condition → Condition → Condition
  /-- negation -/
  condNeg : Condition → Condition
  /-- equivalence test of the algebra -/
  isEquivalentBranchCond : Condition → Condition → Bool
  /-- node currently under guard evaluation -/
  curEvalSVFGNode : SVFGNodePtr

/-- Modelled from the spec: `SaberCondAllocator::setCurEvalSVFGNode`, the
notification of the current node to the oracle (not among the sources); it
records the node and leaves the algebra alone. -/
def SaberCondAllocator.setCurEvalSVFGNode {Condition : Type}
    (pa : SaberCondAllocator Condition) (node : SVFGNodePtr) : SaberCondAllocator Condition :=
  { pa with curEvalSVFGNode := node }

/-- The data members of `class MyProgSlice`, in the order of the header.
`Set<const SVFGNode*>` is a finite set of addresses; `Map<const SVFGNode*, Condition>`
is a partial function from addresses to conditions (`none`: no entry). -/
structure MyProgSlice (Condition : Type) where
  /-- the forward slice -/
  forwardslice : Finset SVFGNodePtr
  /-- the backward slice -/
  backwardslice : Finset SVFGNodePtr
  /-- a set of sink nodes -/
  sinks : Finset SVFGNodePtr
  /-- root node on the slice -/
  root : SVFGNodePtr
  /-- custom source node -/
  customSource : SVFGNodePtr
  /-- map a node to its path condition starting from root -/
  svfgNodeToCondMap : SVFGNodePtr → Option Condition
  /-- reachable from some paths -/
  partialReachable : Bool
  /-- reachable from all paths -/
  fullReachable : Bool
  /-- whether slice reach a global -/
  reachGlob : Bool
  /-- path condition allocator -/
  pathAllocator : SaberCondAllocator Condition
  /-- current node during guard computation -/
  _curSVFGNode : SVFGNodePtr
  /-- final condition -/
  finalCond : Condition
  /-- address of the value-flow graph -/
  svfg : Nat

namespace MyProgSlice

variable {Condition : Type}

/-! ## Member functions -/

/-- Constructor `MyProgSlice(src, pa, graph)`: the three sets and the map are
default-constructed (empty) and `customSource` has the initialiser `nullptr`. -/
def ctor (src : SVFGNodePtr) (pa : SaberCondAllocator Condition) (graph : Nat) :
    MyProgSlice Condition :=
  { forwardslice := ∅
    backwardslice := ∅
    sinks := ∅
    root := src
    customSource := nullptr
    svfgNodeToCondMap := fun _ => none
    partialReachable := false
    fullReachable := false
    reachGlob := false
    pathAllocator := pa
    _curSVFGNode := nullptr
    finalCond := pa.getFalseCond
    svfg := graph }

/-- Member `getForwardSliceSize`: `forwardslice.size()` returned as `u32_t`. -/
def getForwardSliceSize (s : MyProgSlice Condition) : Nat :=
  u32_t s.forwardslice.card

/-- Member `getBackwardSliceSize`: `backwardslice.size()` returned as `u32_t`. -/
def getBackwardSliceSize (s : MyProgSlice Condition) : Nat :=
  u32_t s.backwardslice.card

/-- Member `addToForwardSlice`: `forwardslice.insert(node)`. -/
def addToForwardSlice (s : MyProgSlice Condition) (node : SVFGNodePtr) : MyProgSlice Condition :=
  { s with forwardslice := insert node s.forwardslice }

/-- Member `addToBackwardSlice`: `backwardslice.insert(node)`. -/
def addToBackwardSlice (s : MyProgSlice Condition) (node : SVFGNodePtr) : MyProgSlice Condition :=
  { s with backwardslice := insert node s.backwardslice }

/-- Member `inForwardSlice`: `forwardslice.find(node) != forwardslice.end()`. -/
def inForwardSlice (s : MyProgSlice Condition) (node : SVFGNodePtr) : Bool :=
  decide (node ∈ s.forwardslice)

/-- Member `inBackwardSlice`: `backwardslice.find(node) != backwardslice.end()`. -/
def inBackwardSlice (s : MyProgSlice Condition) (node : SVFGNodePtr) : Bool :=
  decide (node ∈ s.backwardslice)

/-- Member `setCustomSource`: `customSource = source`. -/
def setCustomSource (s : MyProgSlice Condition) (source : SVFGNodePtr) : MyProgSlice Condition :=
  { s with customSource := source }

/-- Member `getSource`: the custom source when it is not null, else the root. -/
def getSource (s : MyProgSlice Condition) : SVFGNodePtr :=
  if s.customSource ≠ nullptr then s.customSource else s.root

/-- Member `addToSinks`: `sinks.insert(node)`. -/
def addToSinks (s : MyProgSlice Condition) (node : SVFGNodePtr) : MyProgSlice Condition :=
  { s with sinks := insert node s.sinks }

/-- Member `getSinks`. -/
def getSinks (s : MyProgSlice Condition) : Finset SVFGNodePtr :=
  s.sinks

/-- Member `setPartialReachable`: `partialReachable = true`. -/
def setPartialReachable (s : MyProgSlice Condition) : MyProgSlice Condition :=
  { s with partialReachable := true }

/-- Member `setAllReachable`: `fullReachable = true`. -/
def setAllReachable (s : MyProgSlice Condition) : MyProgSlice Condition :=
  { s with fullReachable := true }

/-- Member `setReachGlobal`: `return reachGlob = true`, the value of the assignment
and the new state. -/
def setReachGlobal (s : MyProgSlice Condition) : Bool × MyProgSlice Condition :=
  (true, { s with reachGlob := true })

/-- Member `isPartialReachable`: `partialReachable || reachGlob`. -/
def isPartialReachable (s : MyProgSlice Condition) : Bool :=
  s.partialReachable || s.reachGlob

/-- Member `isAllReachable`: `fullReachable || reachGlob`. -/
def isAllReachable (s : MyProgSlice Condition) : Bool :=
  s.fullReachable || s.reachGlob

/-- Member `isReachGlobal`. -/
def isReachGlobal (s : MyProgSlice Condition) : Bool :=
  s.reachGlob

/-- Member `condAnd`: forwarded to the allocator. -/
def condAnd (s : MyProgSlice Condition) (lhs rhs : Condition) : Condition :=
  s.pathAllocator.condAnd lhs rhs

/-- Member `condOr`: forwarded to the allocator. -/
def condOr (s : MyProgSlice Condition) (lhs rhs : Condition) : Condition :=
  s.pathAllocator.condOr lhs rhs

/-- Member `condNeg`: forwarded to the allocator. -/
def condNeg (s : MyProgSlice Condition) (cond : Condition) : Condition :=
  s.pathAllocator.condNeg cond

/-- Member `getTrueCond`: forwarded to the allocator. -/
def getTrueCond (s : MyProgSlice Condition) : Condition :=
  s.pathAllocator.getTrueCond

/-- Member `getFalseCond`: forwarded to the allocator. -/
def getFalseCond (s : MyProgSlice Condition) : Condition :=
  s.pathAllocator.getFalseCond

/-- Member `getSVFG`. -/
def getSVFG (s : MyProgSlice Condition) : Nat :=
  s.svfg

/-- Member `isEquivalentBranchCond`: forwarded to the allocator. -/
def isEquivalentBranchCond (s : MyProgSlice Condition) (lhs rhs : Condition) : Bool :=
  s.pathAllocator.isEquivalentBranchCond lhs rhs

/-- Member `getVFCond` (a `const` member): look the node up with `find`; the
canonical false condition when there is no entry, else the stored condition. -/
def getVFCond (s : MyProgSlice Condition) (node : SVFGNodePtr) : Condition :=
  match s.svfgNodeToCondMap node with
  | none => getFalseCond s
  | some c => c

/-- Member `setVFCond`: when the node has an entry whose condition the algebra
finds equivalent to `cond`, return `false` and change nothing; otherwise
`svfgNodeToCondMap[node] = cond` and return `true`. -/
def setVFCond (s : MyProgSlice Condition) (node : SVFGNodePtr) (cond : Condition) :
    Bool × MyProgSlice Condition :=
  let it := s.svfgNodeToCondMap node
  if (match it with
      | some stored => isEquivalentBranchCond s stored cond
      | none => false) then (false, s)
  else (true, { s with svfgNodeToCondMap := Function.update s.svfgNodeToCondMap node (some cond) })

/-- Member `getCurSVFGNode`. -/
def getCurSVFGNode (s : MyProgSlice Condition) : SVFGNodePtr :=
  s._curSVFGNode

/-- Member `setCurSVFGNode`: `_curSVFGNode = node` and the oracle is told the node. -/
def setCurSVFGNode (s : MyProgSlice Condition) (node : SVFGNodePtr) : MyProgSlice Condition :=
  { s with _curSVFGNode := node
           pathAllocator := s.pathAllocator.setCurEvalSVFGNode node }

/-- Member `setFinalCond`: `finalCond = cond`. -/
def setFinalCond (s : MyProgSlice Condition) (cond : Condition) : MyProgSlice Condition :=
  { s with finalCond := cond }

/-- Modelled from the spec: `isSatisfiableForAll` is declared in the header and
defined elsewhere; the spec has it true iff the final condition is equivalent
to canonical true. -/
def isSatisfiableForAll (s : MyProgSlice Condition) : Bool :=
  isEquivalentBranchCond s s.finalCond (getTrueCond s)

/-- Modelled from the spec: `isSatisfiableForPairs` is declared in the header and
defined elsewhere; the spec has it true iff the final condition is not
equivalent to canonical false. -/
def isSatisfiableForPairs (s : MyProgSlice Condition) : Bool :=
  !(isEquivalentBranchCond s s.finalCond (getFalseCond s))

/-! ## Sequences of member calls -/

/-- One call of a state-changing member function defined in the header. -/
inductive HeaderOp (Condition : Type) where
  | addToForwardSlice (node : SVFGNodePtr)
  | addToBackwardSlice (node : SVFGNodePtr)
  | addToSinks (node : SVFGNodePtr)
  | setCustomSource (source : SVFGNodePtr)
  | setPartialReachable
  | setAllReachable
  | setReachGlobal
  | setVFCond (node : SVFGNodePtr) (cond : Condition)
  | setCurSVFGNode (node : SVFGNodePtr)
  | setFinalCond (cond : Condition)

/-- The slice state after one call (a returned value is dropped). -/
def HeaderOp.run : HeaderOp Condition → MyProgSlice Condition → MyProgSlice Condition
  | .addToForwardSlice node, s => MyProgSlice.addToForwardSlice s node
  | .addToBackwardSlice node, s => MyProgSlice.addToBackwardSlice s node
  | .addToSinks node, s => MyProgSlice.addToSinks s node
  | .setCustomSource source, s => MyProgSlice.setCustomSource s source
  | .setPartialReachable, s => MyProgSlice.setPartialReachable s
  | .setAllReachable, s => MyProgSlice.setAllReachable s
  | .setReachGlobal, s => (MyProgSlice.setReachGlobal s).2
  | .setVFCond node cond, s => (MyProgSlice.setVFCond s node cond).2
  | .setCurSVFGNode node, s => MyProgSlice.setCurSVFGNode s node
  | .setFinalCond cond, s => MyProgSlice.setFinalCond s cond

/-- Whether the call is a call of `setFinalCond`. -/
def HeaderOp.isSetFinalCond : HeaderOp Condition → Bool
  | .setFinalCond _ => true
  | _ => false

/-- The slice state after a sequence of calls, first call first. -/
def runOps (ops : List (HeaderOp Condition)) (s : MyProgSlice Condition) : MyProgSlice Condition :=
  ops.foldl (fun st op => op.run st) s

end MyProgSlice

/-! ## Laws of the external algebra, and a concrete algebra -/

/-- Modelled from the spec: the algebra's test is a semantic equivalence, that
is an equivalence relation on conditions that tells canonical true from
canonical false. -/
structure IsSemanticEquivalence {Condition : Type} (pa : SaberCondAllocator Condition) : Prop where
  refl : ∀ a, pa.isEquivalentBranchCond a a = true
  symm : ∀ a b, pa.isEquivalentBranchCond a b = true → pa.isEquivalentBranchCond b a = true
  trans : ∀ a b c, pa.isEquivalentBranchCond a b = true → pa.isEquivalentBranchCond b c = true →
    pa.isEquivalentBranchCond a c = true
  true_ne_false : pa.isEquivalentBranchCond pa.getTrueCond pa.getFalseCond = false

/-- Modelled from the spec: conditions of a condition algebra over two branch
outcomes, as syntax trees; used as the concrete algebra at which the
developments below are evaluated. -/
inductive BranchCond where
  | tt
  | ff
  | var (second : Bool)
  | and (a b : BranchCond)
  | or (a b : BranchCond)
  | neg (a : BranchCond)
  deriving DecidableEq

/-- Truth value of a condition under the outcomes of the two branches. -/
def BranchCond.eval : BranchCond → Bool × Bool → Bool
  | .tt, _ => true
  | .ff, _ => false
  | .var false, σ => σ.1
  | .var true, σ => σ.2
  | .and a b, σ => a.eval σ && b.eval σ
  | .or a b, σ => a.eval σ || b.eval σ
  | .neg a, σ => !a.eval σ

/-- The four outcomes of two branches. -/
def BranchCond.outcomes : List (Bool × Bool) :=
  [(false, false), (false, true), (true, false), (true, true)]

/-- Semantic equivalence: the same truth value under every outcome. -/
def BranchCond.equiv (a b : BranchCond) : Bool :=
  BranchCond.outcomes.all (fun σ => a.eval σ == b.eval σ)

/-- Modelled from the spec: an allocator whose algebra is `BranchCond` with the
syntactic connectives and the semantic equivalence test. -/
def branchCondAllocator : SaberCondAllocator BranchCond :=
  { getTrueCond := .tt
    getFalseCond := .ff
    condAnd := .and
    condOr := .or
    condNeg := .neg
    isEquivalentBranchCond := BranchCond.equiv
    curEvalSVFGNode := nullptr }

/-- A freshly constructed slice over the concrete algebra: source node at
address 16, graph at address 8. -/
def freshSlice : MyProgSlice BranchCond :=
  MyProgSlice.ctor 16 branchCondAllocator 8

/-- The fresh slice after node 24 has received the condition of the first branch. -/
def guardedSlice : MyProgSlice BranchCond :=
  (MyProgSlice.setVFCond freshSlice 24 (.var false)).2

/-- The guarded slice with the final condition set to `c`. -/
def solvedSlice (c : BranchCond) : MyProgSlice BranchCond :=
  MyProgSlice.setFinalCond guardedSlice c

/-- The addresses `8, 16, ..., 8 * 4294967295`: 4294967295 distinct node addresses. -/
def manyNodes : List SVFGNodePtr :=
  (List.range' 1 4294967295).map (fun i => 8 * i)

/-- The fresh slice after `addToForwardSlice` has been called on each of `manyNodes`. -/
def crowdedSlice : MyProgSlice BranchCond :=
  MyProgSlice.runOps (manyNodes.map MyProgSlice.HeaderOp.addToForwardSlice) freshSlice

/-! ## Auxiliary lemmas -/

theorem BranchCond.equiv_iff (a b : BranchCond) :
    a.equiv b = true ↔ ∀ σ, a.eval σ = b.eval σ := by
  constructor
  · intro h σ
    simp only [BranchCond.equiv, BranchCond.outcomes, List.all_cons, List.all_nil, Bool.and_true,
      Bool.and_eq_true, beq_iff_eq] at h
    obtain ⟨h1, h2, h3, h4⟩ := h
    rcases σ with ⟨x, y⟩
    cases x <;> cases y <;> assumption
  · intro h
    simp [BranchCond.equiv, BranchCond.outcomes, h]

theorem branchCondAllocator_semantic : IsSemanticEquivalence branchCondAllocator where
  refl a := (BranchCond.equiv_iff a a).2 (fun _ => rfl)
  symm a b h := (BranchCond.equiv_iff b a).2 (fun σ => ((BranchCond.equiv_iff a b).1 h σ).symm)
  trans a b c h1 h2 := (BranchCond.equiv_iff a c).2
    (fun σ => ((BranchCond.equiv_iff a b).1 h1 σ).trans ((BranchCond.equiv_iff b c).1 h2 σ))
  true_ne_false := by decide

namespace MyProgSlice

variable {Condition : Type}

@[simp] theorem setVFCond_pathAllocator (s : MyProgSlice Condition) (node : SVFGNodePtr)
    (cond : Condition) : (setVFCond s node cond).2.pathAllocator = s.pathAllocator := by
  unfold setVFCond
  dsimp only
  split <;> rfl

theorem setVFCond_finalCond (s : MyProgSlice Condition) (node : SVFGNodePtr)
    (cond : Condition) : (setVFCond s node cond).2.finalCond = s.finalCond := by
  unfold setVFCond
  dsimp only
  split <;> rfl

theorem setVFCond_reachGlob (s : MyProgSlice Condition) (node : SVFGNodePtr)
    (cond : Condition) : (setVFCond s node cond).2.reachGlob = s.reachGlob := by
  unfold setVFCond
  dsimp only
  split <;> rfl

theorem run_reachGlob (op : HeaderOp Condition) (s : MyProgSlice Condition)
    (h : s.reachGlob = true) : (op.run s).reachGlob = true := by
  cases op <;> simp [HeaderOp.run, addToForwardSlice, addToBackwardSlice, addToSinks,
    setCustomSource, setPartialReachable, setAllReachable, setReachGlobal, setCurSVFGNode,
    setFinalCond, setVFCond_reachGlob, h]

theorem runOps_reachGlob (ops : List (HeaderOp Condition)) (s : MyProgSlice Condition)
    (h : s.reachGlob = true) : (runOps ops s).reachGlob = true := by
  induction ops generalizing s with
  | nil => simpa [runOps] using h
  | cons op rest ih =>
    have := ih (op.run s) (run_reachGlob op s h)
    simpa [runOps] using this

theorem run_finalCond (op : HeaderOp Condition) (s : MyProgSlice Condition)
    (h : op.isSetFinalCond = false) : (op.run s).finalCond = s.finalCond := by
  cases op <;> simp_all [HeaderOp.run, HeaderOp.isSetFinalCond, addToForwardSlice,
    addToBackwardSlice, addToSinks, setCustomSource, setPartialReachable, setAllReachable,
    setReachGlobal, setCurSVFGNode, setVFCond_finalCond]

theorem runOps_finalCond (ops : List (HeaderOp Condition)) (s : MyProgSlice Condition)
    (h : ∀ op ∈ ops, op.isSetFinalCond = false) : (runOps ops s).finalCond = s.finalCond := by
  induction ops generalizing s with
  | nil => rfl
  | cons op rest ih =>
    have h1 := run_finalCond op s (h op (List.mem_cons_self _ _))
    have h2 := ih (op.run s) (fun o ho => h o (List.mem_cons_of_mem _ ho))
    have h3 : runOps (op :: rest) s = runOps rest (op.run s) := rfl
    rw [h3, h2, h1]

theorem setVFCond_stores (s : MyProgSlice Condition) (m : SVFGNodePtr) (c : Condition)
    (h : (setVFCond s m c).1 = true) : (setVFCond s m c).2.svfgNodeToCondMap m = some c := by
  revert h
  unfold setVFCond
  dsimp only
  split <;> simp

theorem setVFCond_unchanged (s : MyProgSlice Condition) (m : SVFGNodePtr) (c : Condition)
    (h : (setVFCond s m c).1 = false) : (setVFCond s m c).2 = s := by
  revert h
  unfold setVFCond
  dsimp only
  split <;> simp

theorem setVFCond_stable (s : MyProgSlice Condition) (m : SVFGNodePtr) (c c0 : Condition)
    (h0 : s.svfgNodeToCondMap m = some c0)
    (he : s.pathAllocator.isEquivalentBranchCond c0 c = true) :
    (setVFCond s m c).1 = false ∧ (setVFCond s m c).2 = s := by
  simp [setVFCond, isEquivalentBranchCond, h0, he]

theorem setVFCond_join_monotone {Val : Type} (eval : Condition → Val → Bool)
    (s : MyProgSlice Condition) (m : SVFGNodePtr) (x : Condition)
    (hor : ∀ a b σ, eval a σ = true → eval (s.pathAllocator.condOr a b) σ = true) :
    ∀ σ, eval (getVFCond s m) σ = true →
      eval (getVFCond (setVFCond s m (condOr s (getVFCond s m) x)).2 m) σ = true := by
  intro σ h
  cases hr : (setVFCond s m (condOr s (getVFCond s m) x)).1 with
  | false =>
    rw [setVFCond_unchanged s m _ hr]
    exact h
  | true =>
    have hst := setVFCond_stores s m _ hr
    have hg : getVFCond (setVFCond s m (condOr s (getVFCond s m) x)).2 m
        = condOr s (getVFCond s m) x := by
      generalize condOr s (getVFCond s m) x = c at hst ⊢
      unfold getVFCond
      rw [hst]
    rw [hg]
    exact hor _ _ σ h

theorem runOps_addToForwardSlice (l : List SVFGNodePtr) (s : MyProgSlice Condition) :
    (runOps (l.map HeaderOp.addToForwardSlice) s).forwardslice = s.forwardslice ∪ l.toFinset := by
  induction l generalizing s with
  | nil => simp [runOps]
  | cons a rest ih =>
    have h3 : runOps ((a :: rest).map HeaderOp.addToForwardSlice) s
        = runOps (rest.map HeaderOp.addToForwardSlice) (addToForwardSlice s a) := rfl
    rw [h3, ih]
    ext x
    simp [addToForwardSlice]

theorem manyNodes_nodup : manyNodes.Nodup := by
  unfold manyNodes
  refine List.Nodup.map ?_ (List.nodup_range' 1 4294967295)
  intro a b h
  simpa using h

theorem manyNodes_length : manyNodes.length = 4294967295 := by
  simp [manyNodes]

theorem crowdedSlice_forwardslice : crowdedSlice.forwardslice = manyNodes.toFinset := by
  unfold crowdedSlice
  rw [runOps_addToForwardSlice]
  simp [freshSlice, ctor]

theorem crowdedSlice_card : crowdedSlice.forwardslice.card = 4294967295 := by
  rw [crowdedSlice_forwardslice, List.toFinset_card_of_nodup manyNodes_nodup, manyNodes_length]

theorem next_not_mem_manyNodes : (34359738368 : SVFGNodePtr) ∉ manyNodes := by
  unfold manyNodes
  intro h
  rw [List.mem_map] at h
  obtain ⟨i, hi_mem, hi⟩ := h
  rw [List.mem_range'_1] at hi_mem
  have h8 : i = 4294967296 :=
    Nat.eq_of_mul_eq_mul_left (by decide : 0 < 8) (hi.trans (by decide : 34359738368 = 8 * 4294967296))
  rw [h8] at hi_mem
  exact absurd hi_mem.2 (by decide)

theorem u32_t_succ (k : Nat) :
    u32_t (k + 1) = (u32_t k + 1) % 4294967296 := by
  unfold u32_t
  omega

theorem not_mem_inForwardSlice (s : MyProgSlice Condition) (n : SVFGNodePtr)
    (hm : n ∉ s.forwardslice) : inForwardSlice s n = false := by
  simpa [inForwardSlice] using hm

theorem size_wraps (s : MyProgSlice Condition) (n : SVFGNodePtr)
    (hc : s.forwardslice.card = 4294967295) (hm : n ∉ s.forwardslice) :
    getForwardSliceSize s = 4294967295 ∧ getForwardSliceSize (addToForwardSlice s n) = 0 := by
  constructor
  · simp [getForwardSliceSize, hc, u32_t]
  · simp [getForwardSliceSize, addToForwardSlice, Finset.card_insert_of_not_mem hm, hc, u32_t]

/-! ## Reachability flags -/

/-- C1: whatever the slice state and whatever values partialReachable and
fullReachable are given (both false included), setReachGlobal returns true, and
after it isPartialReachable and isAllReachable return true, also after any
further sequence of the header's state-changing calls. -/
theorem setReachGlobal_forces_reachable (s : MyProgSlice Condition) (p f : Bool)
    (ops : List (HeaderOp Condition)) :
    (setReachGlobal { s with partialReachable := p, fullReachable := f }).1 = true ∧
    isPartialReachable
      (runOps ops (setReachGlobal { s with partialReachable := p, fullReachable := f }).2) = true ∧
    isAllReachable
      (runOps ops (setReachGlobal { s with partialReachable := p, fullReachable := f }).2) = true := by
  have h := runOps_reachGlob ops
    (setReachGlobal { s with partialReachable := p, fullReachable := f }).2 rfl
  refine ⟨rfl, ?_, ?_⟩
  · simp [isPartialReachable, h]
  · simp [isAllReachable, h]

/-! ## Source accessor -/

/-- C5: after setCustomSource(source), getSource returns source when it is not
null and the root otherwise; root, the three sets, the condition map, the final
condition, the three flags, the cursor, the allocator and the graph are
unchanged, and so is the value of every accessor other than getSource. -/
theorem setCustomSource_frame (s : MyProgSlice Condition) (source : SVFGNodePtr) :
    getSource (setCustomSource s source) = (if source ≠ nullptr then source else s.root) ∧
    (setCustomSource s source).customSource = source ∧
    (setCustomSource s source).root = s.root ∧
    (setCustomSource s source).forwardslice = s.forwardslice ∧
    (setCustomSource s source).backwardslice = s.backwardslice ∧
    (setCustomSource s source).sinks = s.sinks ∧
    (setCustomSource s source).svfgNodeToCondMap = s.svfgNodeToCondMap ∧
    (setCustomSource s source).finalCond = s.finalCond ∧
    (setCustomSource s source).partialReachable = s.partialReachable ∧
    (setCustomSource s source).fullReachable = s.fullReachable ∧
    (setCustomSource s source).reachGlob = s.reachGlob ∧
    (setCustomSource s source)._curSVFGNode = s._curSVFGNode ∧
    (setCustomSource s source).pathAllocator = s.pathAllocator ∧
    (setCustomSource s source).svfg = s.svfg ∧
    getForwardSliceSize (setCustomSource s source) = getForwardSliceSize s ∧
    getBackwardSliceSize (setCustomSource s source) = getBackwardSliceSize s ∧
    (∀ n, inForwardSlice (setCustomSource s source) n = inForwardSlice s n) ∧
    (∀ n, inBackwardSlice (setCustomSource s source) n = inBackwardSlice s n) ∧
    getSinks (setCustomSource s source) = getSinks s ∧
    isPartialReachable (setCustomSource s source) = isPartialReachable s ∧
    isAllReachable (setCustomSource s source) = isAllReachable s ∧
    isReachGlobal (setCustomSource s source) = isReachGlobal s ∧
    (∀ n, getVFCond (setCustomSource s source) n = getVFCond s n) ∧
    getCurSVFGNode (setCustomSource s source) = getCurSVFGNode s ∧
    getTrueCond (setCustomSource s source) = getTrueCond s ∧
    getFalseCond (setCustomSource s source) = getFalseCond s ∧
    (∀ a b, isEquivalentBranchCond (setCustomSource s source) a b = isEquivalentBranchCond s a b) ∧
    isSatisfiableForAll (setCustomSource s source) = isSatisfiableForAll s ∧
    isSatisfiableForPairs (setCustomSource s source) = isSatisfiableForPairs s ∧
    getSVFG (setCustomSource s source) = getSVFG s := by
  refine ⟨rfl, rfl, rfl, rfl, rfl, rfl, rfl, rfl, rfl, rfl, rfl, rfl, rfl, rfl, rfl, rfl,
    fun _ => rfl, fun _ => rfl, rfl, rfl, rfl, rfl, fun _ => rfl, rfl, rfl, rfl,
    fun _ _ => rfl, rfl, rfl, rfl⟩

/-! ## Final condition -/

/-- C8: a freshly constructed slice has the canonical false condition as final
condition, the three flags false, empty forward slice, backward slice, sinks
and condition map, and getSource returns the constructor's source node; and
after any sequence of header calls none of which is setFinalCond the final
condition of the fresh slice is still canonical false (of any slice: still
what it was). -/
theorem finalCond_false_until_setFinalCond (src : SVFGNodePtr)
    (pa : SaberCondAllocator Condition) (graph : Nat) (ops : List (HeaderOp Condition))
    (h : ∀ op ∈ ops, op.isSetFinalCond = false) :
    (ctor src pa graph).finalCond = pa.getFalseCond ∧
    (ctor src pa graph).partialReachable = false ∧
    (ctor src pa graph).fullReachable = false ∧
    (ctor src pa graph).reachGlob = false ∧
    (ctor src pa graph).forwardslice = ∅ ∧
    (ctor src pa graph).backwardslice = ∅ ∧
    (ctor src pa graph).sinks = ∅ ∧
    (∀ n, (ctor src pa graph).svfgNodeToCondMap n = none) ∧
    getSource (ctor src pa graph) = src ∧
    (runOps ops (ctor src pa graph)).finalCond = pa.getFalseCond ∧
    (∀ s : MyProgSlice Condition, (runOps ops s).finalCond = s.finalCond) := by
  refine ⟨rfl, rfl, rfl, rfl, rfl, rfl, rfl, fun _ => rfl, ?_, ?_, ?_⟩
  · simp [getSource, ctor]
  · rw [runOps_finalCond ops _ h]
    rfl
  · intro s
    exact runOps_finalCond ops s h

/-- Witness for C8 at the concrete algebra: a sequence of nine calls, one of
each kind other than setFinalCond. -/
theorem finalCond_false_until_setFinalCond_witness :
    freshSlice.finalCond = BranchCond.ff ∧
    getSource freshSlice = 16 ∧
    (runOps [.addToForwardSlice 24, .addToBackwardSlice 24, .addToSinks 32, .setCustomSource 40,
        .setPartialReachable, .setAllReachable, .setReachGlobal, .setVFCond 24 (.var false),
        .setCurSVFGNode 24] freshSlice).finalCond = BranchCond.ff :=
  have w := finalCond_false_until_setFinalCond 16 branchCondAllocator 8
    [.addToForwardSlice 24, .addToBackwardSlice 24, .addToSinks 32, .setCustomSource 40,
      .setPartialReachable, .setAllReachable, .setReachGlobal, .setVFCond 24 (.var false),
      .setCurSVFGNode 24] (by decide)
  ⟨w.1, w.2.2.2.2.2.2.2.2.1, w.2.2.2.2.2.2.2.2.2.1⟩

/-! ## Node conditions -/

/-- C4: getVFCond returns the canonical false condition of the algebra for a
node without an entry in the condition map and exactly the stored condition
for a node with one.  (getVFCond is a const member that looks the node up with
find; it is a function of the state and returns no new state, so the map is
the same after the call.) -/
theorem getVFCond_spec (s : MyProgSlice Condition) (node : SVFGNodePtr) :
    (s.svfgNodeToCondMap node = none → getVFCond s node = s.pathAllocator.getFalseCond) ∧
    (∀ c, s.svfgNodeToCondMap node = some c → getVFCond s node = c) := by
  constructor
  · intro h
    simp [getVFCond, getFalseCond, h]
  · intro c h
    simp [getVFCond, h]

/-- Witness for C4: in the guarded slice node 32 has no entry and node 24 has
the stored condition of the first branch. -/
theorem getVFCond_spec_witness :
    guardedSlice.svfgNodeToCondMap 32 = none ∧
    getVFCond guardedSlice 32 = BranchCond.ff ∧
    guardedSlice.svfgNodeToCondMap 24 = some (BranchCond.var false) ∧
    getVFCond guardedSlice 24 = BranchCond.var false :=
  ⟨by decide, (getVFCond_spec guardedSlice 32).1 (by decide), by decide,
    (getVFCond_spec guardedSlice 24).2 (BranchCond.var false) (by decide)⟩

/-- C3: when node m has the stored condition c0 and the algebra finds c
equivalent to c0, setVFCond(m, c) returns false and leaves the condition map
(indeed the whole slice state) unchanged; whatever setVFCond(m, c) returns, the
entry of every node other than m is unchanged; and the entry of m differs after
the call only if m had no entry or c is not equivalent to the stored one. -/
theorem setVFCond_frame (s : MyProgSlice Condition) (m : SVFGNodePtr) (c : Condition) :
    (∀ c0, s.svfgNodeToCondMap m = some c0 → s.pathAllocator.isEquivalentBranchCond c0 c = true →
      (setVFCond s m c).1 = false ∧
      (setVFCond s m c).2.svfgNodeToCondMap = s.svfgNodeToCondMap ∧
      (setVFCond s m c).2 = s) ∧
    (∀ n, n ≠ m → (setVFCond s m c).2.svfgNodeToCondMap n = s.svfgNodeToCondMap n) ∧
    ((setVFCond s m c).2.svfgNodeToCondMap m ≠ s.svfgNodeToCondMap m →
      ∀ c0, s.svfgNodeToCondMap m = some c0 →
        s.pathAllocator.isEquivalentBranchCond c0 c = false) := by
  refine ⟨?_, ?_, ?_⟩
  · intro c0 h0 he
    simp [setVFCond, isEquivalentBranchCond, h0, he]
  · intro n hn
    unfold setVFCond
    dsimp only
    split
    · rfl
    · simp [Function.update, hn]
  · intro hne c0 h0
    by_contra hc
    have he : s.pathAllocator.isEquivalentBranchCond c0 c = true := by simpa using hc
    apply hne
    simp [setVFCond, isEquivalentBranchCond, h0, he]

/-- Witness for C3: node 24 holds the first branch's condition P; setting it to
the equivalent but different condition P AND true reports no change, and
setting node 32 leaves node 24 alone. -/
theorem setVFCond_frame_witness :
    (setVFCond guardedSlice 24 (.and (.var false) .tt)).1 = false ∧
    (setVFCond guardedSlice 24 (.and (.var false) .tt)).2 = guardedSlice ∧
    (setVFCond guardedSlice 32 .tt).2.svfgNodeToCondMap 24 = some (BranchCond.var false) :=
  have w := (setVFCond_frame guardedSlice 24 (.and (.var false) .tt)).1 (.var false)
    (by decide) (by decide)
  ⟨w.1, w.2.2,
    ((setVFCond_frame guardedSlice 32 .tt).2.1 24 (by decide)).trans (by decide)⟩

/-- C2 as amended: setVFCond(m, newCond) returns true, and then stores newCond
for m, iff m has no stored entry or the algebra finds newCond not equivalent to
the stored condition of m; otherwise it returns false and stores nothing.  For
a node that has an entry this is: iff newCond is not equivalent to what
getVFCond(m) returned before the call. -/
theorem setVFCond_changed_iff (s : MyProgSlice Condition) (m : SVFGNodePtr) (newCond : Condition) :
    ((setVFCond s m newCond).1 = true ↔
      (s.svfgNodeToCondMap m = none ∨
        ∃ c0, s.svfgNodeToCondMap m = some c0 ∧
          s.pathAllocator.isEquivalentBranchCond c0 newCond = false)) ∧
    ((setVFCond s m newCond).1 = true →
      (setVFCond s m newCond).2.svfgNodeToCondMap m = some newCond) ∧
    ((setVFCond s m newCond).1 = false → (setVFCond s m newCond).2 = s) ∧
    ((s.svfgNodeToCondMap m).isSome = true →
      ((setVFCond s m newCond).1 = true ↔
        isEquivalentBranchCond s (getVFCond s m) newCond = false)) := by
  cases h0 : s.svfgNodeToCondMap m with
  | none => simp [setVFCond, h0]
  | some c0 =>
    cases he : s.pathAllocator.isEquivalentBranchCond c0 newCond <;>
      simp [setVFCond, getVFCond, isEquivalentBranchCond, h0, he]

/-- Counterexample for C2: in a fresh slice node 24 has no entry, so
getVFCond(24) is canonical false; setVFCond(24, false) nevertheless returns
true and stores the condition, although the new condition is equivalent to the
one getVFCond returned before the call. -/
theorem setVFCond_changed_iff_counterexample :
    freshSlice.svfgNodeToCondMap 24 = none ∧
    getVFCond freshSlice 24 = BranchCond.ff ∧
    isEquivalentBranchCond freshSlice (getVFCond freshSlice 24) BranchCond.ff = true ∧
    (setVFCond freshSlice 24 BranchCond.ff).1 = true ∧
    (setVFCond freshSlice 24 BranchCond.ff).2.svfgNodeToCondMap 24 = some BranchCond.ff ∧
    ¬ ((setVFCond freshSlice 24 BranchCond.ff).1 = true ↔
        isEquivalentBranchCond freshSlice (getVFCond freshSlice 24) BranchCond.ff = false) := by
  decide

/-- Witness for C2 as amended: node 24 of the guarded slice has an entry, and
setting it to the non-equivalent canonical true reports a change. -/
theorem setVFCond_changed_iff_witness :
    (setVFCond guardedSlice 24 .tt).1 = true ∧
    (setVFCond guardedSlice 24 .tt).2.svfgNodeToCondMap 24 = some BranchCond.tt ∧
    isEquivalentBranchCond guardedSlice (getVFCond guardedSlice 24) .tt = false :=
  have w := setVFCond_changed_iff guardedSlice 24 .tt
  have h1 : (setVFCond guardedSlice 24 .tt).1 = true :=
    w.1.2 (Or.inr ⟨.var false, by decide, by decide⟩)
  ⟨h1, w.2.1 h1, (w.2.2.2 (by decide)).1 h1⟩

/-- C10: provided the algebra's equivalence test is reflexive, after
setVFCond(m, c), whatever it returned, m has a stored entry and getVFCond(m) is
equivalent to c; when it returned true getVFCond(m) is exactly c; and the same
call repeated at once returns false. -/
theorem setVFCond_roundtrip (s : MyProgSlice Condition) (m : SVFGNodePtr) (c : Condition)
    (hrefl : ∀ x, s.pathAllocator.isEquivalentBranchCond x x = true) :
    ((setVFCond s m c).2.svfgNodeToCondMap m).isSome = true ∧
    isEquivalentBranchCond (setVFCond s m c).2 (getVFCond (setVFCond s m c).2 m) c = true ∧
    ((setVFCond s m c).1 = true → getVFCond (setVFCond s m c).2 m = c) ∧
    (setVFCond (setVFCond s m c).2 m c).1 = false := by
  cases h0 : s.svfgNodeToCondMap m with
  | none => simp [setVFCond, getVFCond, isEquivalentBranchCond, h0, hrefl]
  | some c0 =>
    cases he : s.pathAllocator.isEquivalentBranchCond c0 c <;>
      simp [setVFCond, getVFCond, isEquivalentBranchCond, h0, he, hrefl]

/-- Witness for C10 at the concrete algebra: a first call that stores (node 32
had no entry) and a call that does not (node 24 holds the equivalent P). -/
theorem setVFCond_roundtrip_witness :
    (∀ x, freshSlice.pathAllocator.isEquivalentBranchCond x x = true) ∧
    getVFCond (setVFCond guardedSlice 32 (.var true)).2 32 = BranchCond.var true ∧
    (setVFCond (setVFCond guardedSlice 32 (.var true)).2 32 (.var true)).1 = false ∧
    isEquivalentBranchCond (setVFCond guardedSlice 24 (.or (.var false) .ff)).2
      (getVFCond (setVFCond guardedSlice 24 (.or (.var false) .ff)).2 24)
      (.or (.var false) .ff) = true :=
  have w := setVFCond_roundtrip guardedSlice 32 (.var true) branchCondAllocator_semantic.refl
  ⟨branchCondAllocator_semantic.refl, w.2.2.1 (by decide), w.2.2.2,
    (setVFCond_roundtrip guardedSlice 24 (.or (.var false) .ff)
      branchCondAllocator_semantic.refl).2.1⟩

/-- C7: for an edge from n to m with guard g, let newCond be
condOr(getVFCond(m), condAnd(getVFCond(n), g)).  Under any valuation of
conditions for which the algebra's OR is implied by its left operand, the
condition of m before setVFCond(m, newCond) (canonical false when m has no
entry) implies the condition of m after it, and when the call returns true the
stored condition is newCond; and when m already has a stored condition that
the algebra's test finds equivalent to newCond, the call returns false and the
slice is unchanged, so nothing is re-enqueued. -/
theorem propagation_update_monotone {Val : Type} (eval : Condition → Val → Bool)
    (s : MyProgSlice Condition) (n m : SVFGNodePtr) (g : Condition)
    (hor : ∀ a b σ, eval a σ = true → eval (s.pathAllocator.condOr a b) σ = true) :
    ((setVFCond s m (condOr s (getVFCond s m) (condAnd s (getVFCond s n) g))).1 = true →
      (setVFCond s m
          (condOr s (getVFCond s m) (condAnd s (getVFCond s n) g))).2.svfgNodeToCondMap m
        = some (condOr s (getVFCond s m) (condAnd s (getVFCond s n) g))) ∧
    (∀ σ, eval (getVFCond s m) σ = true →
      eval (getVFCond
        (setVFCond s m (condOr s (getVFCond s m) (condAnd s (getVFCond s n) g))).2 m) σ = true) ∧
    (∀ c0, s.svfgNodeToCondMap m = some c0 →
      isEquivalentBranchCond s c0
        (condOr s (getVFCond s m) (condAnd s (getVFCond s n) g)) = true →
      (setVFCond s m (condOr s (getVFCond s m) (condAnd s (getVFCond s n) g))).1 = false ∧
      (setVFCond s m (condOr s (getVFCond s m) (condAnd s (getVFCond s n) g))).2 = s) := by
  refine ⟨setVFCond_stores s m _, ?_, fun c0 h0 he => setVFCond_stable s m _ c0 h0 he⟩
  intro σ h
  exact setVFCond_join_monotone eval s m (condAnd s (getVFCond s n) g) hor σ h

/-- Witness for C7 at the concrete algebra and its truth-value semantics: the
edge from node 24 (condition P) to node 32 (no entry) with guard Q stores
false OR (P AND Q) for node 32, and the self-edge on node 24 with guard true
yields P OR (P AND true), equivalent to the stored P, so nothing changes. -/
theorem propagation_update_monotone_witness :
    (setVFCond guardedSlice 32
        (condOr guardedSlice (getVFCond guardedSlice 32)
          (condAnd guardedSlice (getVFCond guardedSlice 24) (.var true)))).2.svfgNodeToCondMap 32
      = some (BranchCond.or .ff (.and (.var false) (.var true))) ∧
    (∀ σ, BranchCond.eval (getVFCond guardedSlice 32) σ = true →
      BranchCond.eval (getVFCond
        (setVFCond guardedSlice 32
          (condOr guardedSlice (getVFCond guardedSlice 32)
            (condAnd guardedSlice (getVFCond guardedSlice 24) (.var true)))).2 32) σ = true) ∧
    (setVFCond guardedSlice 24
        (condOr guardedSlice (getVFCond guardedSlice 24)
          (condAnd guardedSlice (getVFCond guardedSlice 24) .tt))).1 = false :=
  have hor : ∀ (a b : BranchCond) (σ : Bool × Bool), a.eval σ = true →
      (guardedSlice.pathAllocator.condOr a b).eval σ = true := by
    intro a b σ h
    show (a.eval σ || b.eval σ) = true
    simp [h]
  have w := propagation_update_monotone BranchCond.eval guardedSlice 24 32 (.var true) hor
  ⟨(w.1 (by decide)).trans (by decide), w.2.1,
    ((propagation_update_monotone BranchCond.eval guardedSlice 24 24 .tt hor).2.2
      (.var false) (by decide) (by decide)).1⟩

/-! ## Satisfiability verdicts -/

/-- C6: in every algebra whose test is a semantic equivalence, for every final
condition isSatisfiableForAll implies isSatisfiableForPairs (a final condition
equivalent to canonical true is not equivalent to canonical false); and the
converse fails: in the concrete algebra there is a final condition for which
isSatisfiableForPairs is true and isSatisfiableForAll is false. -/
theorem satisfiableForAll_imp_forPairs :
    (∀ (Cond : Type) (s : MyProgSlice Cond), IsSemanticEquivalence s.pathAllocator →
      isSatisfiableForAll s = true → isSatisfiableForPairs s = true) ∧
    (∃ c : BranchCond, isSatisfiableForPairs (solvedSlice c) = true ∧
      isSatisfiableForAll (solvedSlice c) = false) := by
  constructor
  · intro Cond s hsem hall
    unfold isSatisfiableForAll isEquivalentBranchCond getTrueCond at hall
    unfold isSatisfiableForPairs isEquivalentBranchCond getFalseCond
    cases hf : s.pathAllocator.isEquivalentBranchCond s.finalCond s.pathAllocator.getFalseCond with
    | false => rfl
    | true =>
      have h1 := hsem.trans _ _ _ (hsem.symm _ _ hall) hf
      rw [hsem.true_ne_false] at h1
      exact absurd h1 (by decide)
  · exact ⟨.var false, by decide, by decide⟩

/-- Witness for C6: the final condition P OR NOT P is equivalent to canonical
true, so both verdicts are true. -/
theorem satisfiableForAll_imp_forPairs_witness :
    isSatisfiableForAll (solvedSlice (.or (.var false) (.neg (.var false)))) = true ∧
    isSatisfiableForPairs (solvedSlice (.or (.var false) (.neg (.var false)))) = true :=
  ⟨by decide, satisfiableForAll_imp_forPairs.1 BranchCond
    (solvedSlice (.or (.var false) (.neg (.var false)))) branchCondAllocator_semantic (by decide)⟩

/-! ## Slice membership and sizes -/

/-- C9 as amended: addToForwardSlice(n) makes inForwardSlice(n) true, leaves the
forward membership of every other node, the backward slice and the sinks
unchanged, leaves getForwardSliceSize unchanged when n was already a member,
and when n was not a member turns its value v into (v + 1) mod 2^32, which is
v + 1 unless v = 4294967295; symmetrically for addToBackwardSlice; and a node
added to both slices is a member of both. -/
theorem addToSlice_spec (s : MyProgSlice Condition) (n : SVFGNodePtr) :
    (inForwardSlice (addToForwardSlice s n) n = true ∧
     (∀ k, k ≠ n → inForwardSlice (addToForwardSlice s n) k = inForwardSlice s k) ∧
     (addToForwardSlice s n).backwardslice = s.backwardslice ∧
     (addToForwardSlice s n).sinks = s.sinks ∧
     (inForwardSlice s n = true →
       getForwardSliceSize (addToForwardSlice s n) = getForwardSliceSize s) ∧
     (inForwardSlice s n = false →
       getForwardSliceSize (addToForwardSlice s n) = (getForwardSliceSize s + 1) % 4294967296 ∧
       (getForwardSliceSize s ≠ 4294967295 →
         getForwardSliceSize (addToForwardSlice s n) = getForwardSliceSize s + 1))) ∧
    (inBackwardSlice (addToBackwardSlice s n) n = true ∧
     (∀ k, k ≠ n → inBackwardSlice (addToBackwardSlice s n) k = inBackwardSlice s k) ∧
     (addToBackwardSlice s n).forwardslice = s.forwardslice ∧
     (addToBackwardSlice s n).sinks = s.sinks ∧
     (inBackwardSlice s n = true →
       getBackwardSliceSize (addToBackwardSlice s n) = getBackwardSliceSize s) ∧
     (inBackwardSlice s n = false →
       getBackwardSliceSize (addToBackwardSlice s n) = (getBackwardSliceSize s + 1) % 4294967296 ∧
       (getBackwardSliceSize s ≠ 4294967295 →
         getBackwardSliceSize (addToBackwardSlice s n) = getBackwardSliceSize s + 1))) ∧
    (inForwardSlice (addToBackwardSlice (addToForwardSlice s n) n) n = true ∧
     inBackwardSlice (addToBackwardSlice (addToForwardSlice s n) n) n = true) := by
  refine ⟨⟨?_, ?_, rfl, rfl, ?_, ?_⟩, ⟨?_, ?_, rfl, rfl, ?_, ?_⟩, ?_, ?_⟩
  · simp [inForwardSlice, addToForwardSlice]
  · intro k hk
    simp [inForwardSlice, addToForwardSlice, hk]
  · intro h
    have hm : n ∈ s.forwardslice := by simpa [inForwardSlice] using h
    simp [getForwardSliceSize, addToForwardSlice, Finset.insert_eq_of_mem hm]
  · intro h
    have hm : n ∉ s.forwardslice := by simpa [inForwardSlice] using h
    have hs : getForwardSliceSize (addToForwardSlice s n)
        = (getForwardSliceSize s + 1) % 4294967296 := by
      simp only [getForwardSliceSize, addToForwardSlice, Finset.card_insert_of_not_mem hm]
      exact u32_t_succ _
    refine ⟨hs, fun hne => ?_⟩
    rw [hs]
    have hlt : getForwardSliceSize s < 4294967296 := Nat.mod_lt _ (by decide)
    omega
  · simp [inBackwardSlice, addToBackwardSlice]
  · intro k hk
    simp [inBackwardSlice, addToBackwardSlice, hk]
  · intro h
    have hm : n ∈ s.backwardslice := by simpa [inBackwardSlice] using h
    simp [getBackwardSliceSize, addToBackwardSlice, Finset.insert_eq_of_mem hm]
  · intro h
    have hm : n ∉ s.backwardslice := by simpa [inBackwardSlice] using h
    have hs : getBackwardSliceSize (addToBackwardSlice s n)
        = (getBackwardSliceSize s + 1) % 4294967296 := by
      simp only [getBackwardSliceSize, addToBackwardSlice, Finset.card_insert_of_not_mem hm]
      exact u32_t_succ _
    refine ⟨hs, fun hne => ?_⟩
    rw [hs]
    have hlt : getBackwardSliceSize s < 4294967296 := Nat.mod_lt _ (by decide)
    omega
  · simp [inForwardSlice, addToBackwardSlice, addToForwardSlice]
  · simp [inBackwardSlice, addToBackwardSlice]

/-- Counterexample for C9: the slice whose forward slice holds the 4294967295
nodes at addresses 8, 16, ..., 8 * 4294967295 reports the size 4294967295; the
node at address 8 * 4294967296 = 34359738368 is not a member, and after
addToForwardSlice on it the reported size is 0, not 4294967296. -/
theorem addToSlice_size_counterexample :
    inForwardSlice crowdedSlice 34359738368 = false ∧
    getForwardSliceSize crowdedSlice = 4294967295 ∧
    getForwardSliceSize (addToForwardSlice crowdedSlice 34359738368) = 0 ∧
    ¬ (getForwardSliceSize (addToForwardSlice crowdedSlice 34359738368)
        = getForwardSliceSize crowdedSlice + 1) := by
  have hm : (34359738368 : SVFGNodePtr) ∉ crowdedSlice.forwardslice := by
    rw [crowdedSlice_forwardslice, List.mem_toFinset]
    exact next_not_mem_manyNodes
  have hw := size_wraps crowdedSlice 34359738368 crowdedSlice_card hm
  refine ⟨not_mem_inForwardSlice crowdedSlice 34359738368 hm, hw.1, hw.2, ?_⟩
  rw [hw.1, hw.2]
  decide

/-- Witness for C9 as amended: node 24 is new to the fresh slice's forward slice
(size 0 becomes 1), and adding it again changes nothing. -/
theorem addToSlice_spec_witness :
    getForwardSliceSize (addToForwardSlice freshSlice 24) = getForwardSliceSize freshSlice + 1 ∧
    getForwardSliceSize (addToForwardSlice (addToForwardSlice freshSlice 24) 24)
      = getForwardSliceSize (addToForwardSlice freshSlice 24) ∧
    inBackwardSlice (addToForwardSlice freshSlice 24) 24 = false :=
  ⟨((addToSlice_spec freshSlice 24).1.2.2.2.2.2 (by decide)).2 (by decide),
    (addToSlice_spec (addToForwardSlice freshSlice 24) 24).1.2.2.2.2.1 (by decide),
    by decide⟩

end MyProgSlice

end SVF
